import Mathlib

/-
  Verification development for the axel source file src/tcp.c (TCP connection layer).

  The C module is embedded shallowly: each syscall outcome is supplied by an
  environment oracle (per-candidate socket/bind/connect/select results, the
  resolver result, errno-to-string tables), and each function is translated
  into a pure Lean function that additionally records the trace of externally
  visible actions (socket creation, bind, fcntl flips, connect, select, close,
  TLS teardown, socket-option setting) as a list of events.

  The linked list the resolver returns, made of `struct addrinfo` nodes, is
  embedded as a `List Candidate`. The candidate loop of tcp_connect exists in
  two forms here: connectLoopFuel is the faithful embedding of the C while
  loop (which, because its body is guarded by sock_fd != -1, never advances
  gai_result when socket() itself fails, and therefore need not terminate),
  and connectLoop is the advance-on-every-failure recursion that the two
  loops provably share whenever socket() succeeds on each candidate (lemma
  connectLoopFuel_agrees); tcp_connect is built on the latter.

  ssl.c is not part of the sources; ssl_connect and ssl_disconnect are
  modelled from the spec (see their doc comments).
-/

namespace Axel

/-- AF_INET, the IPv4 address family constant (Linux value). -/
def AF_INET : Nat := 2

/-- EINPROGRESS errno value (Linux value); tcp_connect compares errno to it. -/
def EINPROGRESS : Nat := 115

/-- struct sockaddr_in as tcp_connect uses it: family, port and the IPv4
address (the result of inet_addr on the textual address). The `memset` of
local_addr corresponds to the all-zero record. -/
structure SockAddrIn where
  sin_family : Nat
  sin_port : Nat
  sin_addr : Nat
deriving DecidableEq, Repr

/-- Outcome of a connect(2) call: `ok` for a return value other than -1,
`fail e` for -1 with errno set to `e`. -/
inductive ConnectOut where
  | ok : ConnectOut
  | fail : Nat → ConnectOut
deriving DecidableEq, Repr

/-- One node of the getaddrinfo result list, together with the oracle for the
syscalls tcp_connect would issue on it: the socket() result (`none` means -1,
with `sockErrno`), the bind() result if a bind is attempted, the connect()
result as a function of whether O_NONBLOCK was set, and the select() return
value (an Int: -1 error with `selErrno`, 0 timeout, positive ready). -/
structure Candidate where
  ai_family : Nat
  ai_socktype : Nat
  ai_protocol : Nat
  sockfd : Option Nat
  sockErrno : Nat
  bindOk : Bool
  bindErrno : Nat
  connOut : Bool → ConnectOut
  selRet : Int
  selErrno : Nat

/-- Externally visible actions of the module, recorded in order. -/
inductive Event where
  | socketCall (family socktype protocol : Nat) (res : Option Nat)
  | bindCall (fd : Nat) (addr : SockAddrIn) (ok : Bool)
  | setNonblock (fd : Nat)
  | connectCall (fd : Nat) (nonblock : Bool) (out : ConnectOut)
  | selectCall (fd : Nat) (timeoutSec : Nat) (ret : Int)
  | setBlocking (fd : Nat)
  | closeFd (fd : Nat)
  | sslShutdown
  | setSockTimeouts (fd : Nat) (sec : Nat)
  | ioctlGifaddr (fd : Nat) (ifname : String) (ok : Bool)
deriving DecidableEq, Repr

/-- A TLS session handle; it wraps the descriptor it was created over
(ssl_connect receives sock_fd). -/
structure SSLSession where
  fd : Nat
deriving DecidableEq, Repr

/-- tcp_t: the connection record. `ai_family` is the family
preference of the caller, `fd` the transport descriptor (-1 when closed), `ssl` the
optional secure session. -/
structure tcp_t where
  ai_family : Nat
  fd : Int
  ssl : Option SSLSession
deriving DecidableEq, Repr

/-- Environment oracle for one tcp_connect call: the return value of getaddrinfo
and result list, the gai_strerror and strerror tables, inet_addr, the ambient
errno at entry, and the outcome of a TLS handshake should one be attempted
(with the message ssl_connect would leave in the message buffer). -/
structure Env where
  gaiRet : Int
  gaiResults : List Candidate
  gaiStrerror : Int → String
  strerror : Nat → String
  inet_addr : String → Nat
  errno0 : Nat
  handshakeOk : Bool
  sslMessage : String

/-- tcp_error (tcp.c:54-59): formats the failure message into the
message buffer. -/
def tcp_error (hostname : String) (port : Int) (reason : String) : String :=
  "Unable to connect to server " ++ hostname ++ ":" ++ toString port ++ ": "
    ++ reason ++ "\n"

/-- The test `local_if && *local_if` on the optional local-interface string:
present and non-empty. -/
def localIfNonEmpty : Option String → Bool
  | none => false
  | some s => !s.isEmpty

/-- local_addr as prepared at tcp.c:74-79: zeroed by memset, then filled with
(AF_INET, port 0, inet_addr(local_if)) only when the connection record family
preference is AF_INET and the local-interface string is non-empty. -/
def mkLocalAddr (env : Env) (family : Nat) (local_if : Option String) : SockAddrIn :=
  if family = AF_INET ∧ localIfNonEmpty local_if then
    ⟨AF_INET, 0, env.inet_addr (local_if.getD "")⟩
  else ⟨0, 0, 0⟩

/-- Result of one candidate attempt (tcp.c:99-143): failure with the errno the
last failing syscall set, or success with the connected descriptor and the
errno update the attempt made (connect sets errno to EINPROGRESS on the
in-progress path even when the wait then reports readiness). Both carry the
event trace of the attempt. -/
inductive AttemptRes where
  | fail (errno : Nat) (events : List Event)
  | succ (fd : Nat) (errnoUpd : Option Nat) (events : List Event)
deriving DecidableEq, Repr

/-- Prefix a trace onto an attempt result (the earlier events of the attempt come
before the connect-phase events). -/
def AttemptRes.prepend (pre : List Event) : AttemptRes → AttemptRes
  | AttemptRes.fail e ev => AttemptRes.fail e (pre ++ ev)
  | AttemptRes.succ fd u ev => AttemptRes.succ fd u (pre ++ ev)

/-- Whether O_NONBLOCK is switched on for the attempt: `io_timeout` nonzero
(tcp.c:123-124). -/
def nbFlag (io_timeout : Nat) : Bool :=
  io_timeout ≠ 0

/-- The connect phase of one attempt (tcp.c:120-143): optional O_NONBLOCK
switch when a timeout was requested, connect, the select wait on
errno == EINPROGRESS, and the close-and-advance versus restore-blocking
decision on `ret == -1`. Note the code only tests `ret == -1` after select,
so a select return of 0 (timeout expired) falls into the success branch. -/
def connectPhase (io_timeout : Nat) (fd : Nat) (c : Candidate) : AttemptRes :=
  let nb := nbFlag io_timeout
  let pre : List Event := if nb then [Event.setNonblock fd] else []
  match c.connOut nb with
  | ConnectOut.ok =>
      AttemptRes.succ fd none
        (pre ++ [Event.connectCall fd nb ConnectOut.ok, Event.setBlocking fd])
  | ConnectOut.fail e =>
      if e = EINPROGRESS then
        if c.selRet = -1 then
          AttemptRes.fail c.selErrno
            (pre ++ [Event.connectCall fd nb (ConnectOut.fail e),
              Event.selectCall fd io_timeout c.selRet, Event.closeFd fd])
        else
          AttemptRes.succ fd (some e)
            (pre ++ [Event.connectCall fd nb (ConnectOut.fail e),
              Event.selectCall fd io_timeout c.selRet, Event.setBlocking fd])
      else
        AttemptRes.fail e
          (pre ++ [Event.connectCall fd nb (ConnectOut.fail e), Event.closeFd fd])

/-- One full candidate attempt (tcp.c:99-143): socket creation, the IPv4
local-interface bind (tcp.c:105-118), then the connect phase. `localAddr` is
the prepared local_addr and `localIfSet` the `local_if && *local_if` test. -/
def attempt (localAddr : SockAddrIn) (localIfSet : Bool) (io_timeout : Nat)
    (c : Candidate) : AttemptRes :=
  match c.sockfd with
  | none =>
      AttemptRes.fail c.sockErrno
        [Event.socketCall c.ai_family c.ai_socktype c.ai_protocol none]
  | some fd =>
      let ev0 : List Event :=
        [Event.socketCall c.ai_family c.ai_socktype c.ai_protocol (some fd)]
      if c.ai_family = AF_INET ∧ localIfSet then
        if c.bindOk then
          (connectPhase io_timeout fd c).prepend
            (ev0 ++ [Event.bindCall fd localAddr true])
        else
          AttemptRes.fail c.bindErrno
            (ev0 ++ [Event.bindCall fd localAddr false, Event.closeFd fd])
      else
        (connectPhase io_timeout fd c).prepend ev0

/-- Result of the candidate loop: either every candidate was exhausted
(sock_fd still -1 at tcp.c:149) with the final errno, or candidate `idx`
connected with descriptor `fd`. Both carry the final errno and the trace. -/
inductive LoopRes where
  | exhausted (errno : Nat) (events : List Event)
  | connected (idx : Nat) (fd : Nat) (errno : Nat) (events : List Event)
deriving Repr

/-- The candidate loop as an idealized advance-on-every-failure recursion:
candidates are tried in resolver order, stopping at the first attempt that
leaves sock_fd non-negative, and every failed attempt moves to the next
candidate. CAUTION: this matches the C while loop of tcp.c:95-145 only on
environments where socket() succeeds for every candidate tried (proved as
connectLoopFuel_agrees); the real loop guards its whole body with
sock_fd != -1 (tcp.c:103) and advances gai_result only inside it, so on a
socket() failure the C code retries the same candidate instead of skipping.
The faithful embedding of the loop is connectLoopFuel below. -/
def connectLoop (localAddr : SockAddrIn) (localIfSet : Bool) (io_timeout : Nat) :
    List Candidate → Nat → LoopRes
  | [], errno => LoopRes.exhausted errno []
  | c :: rest, errno =>
      match attempt localAddr localIfSet io_timeout c with
      | AttemptRes.fail e ev =>
          match connectLoop localAddr localIfSet io_timeout rest e with
          | LoopRes.exhausted e2 ev2 => LoopRes.exhausted e2 (ev ++ ev2)
          | LoopRes.connected k fd e2 ev2 =>
              LoopRes.connected (k + 1) fd e2 (ev ++ ev2)
      | AttemptRes.succ fd upd ev =>
          LoopRes.connected 0 fd (upd.getD errno) ev

/-- The while loop of tcp.c:95-145 embedded faithfully, with a fuel bound on
the number of iterations. Each iteration runs one attempt on the head
candidate. The loop body (tcp.c:103-144) is guarded by sock_fd != -1 and
gai_result is advanced only inside it, so when socket() returns -1 (the
attempt fails with `c.sockfd = none`) the next iteration retries the SAME
candidate; only bind/connect/select failures advance to the next candidate.
`none` means the fuel ran out before the loop exited — and since the
per-candidate oracle is deterministic, a candidate whose socket() fails
makes the loop spin forever, so every fuel runs out. -/
def connectLoopFuel (localAddr : SockAddrIn) (localIfSet : Bool)
    (io_timeout : Nat) : Nat → List Candidate → Nat → Option LoopRes
  | 0, _, _ => none
  | _ + 1, [], errno => some (LoopRes.exhausted errno [])
  | fuel + 1, c :: rest, errno =>
      match attempt localAddr localIfSet io_timeout c with
      | AttemptRes.succ fd upd ev =>
          some (LoopRes.connected 0 fd (upd.getD errno) ev)
      | AttemptRes.fail e ev =>
          if c.sockfd = none then
            match connectLoopFuel localAddr localIfSet io_timeout fuel
                (c :: rest) e with
            | none => none
            | some (LoopRes.exhausted e2 ev2) =>
                some (LoopRes.exhausted e2 (ev ++ ev2))
            | some (LoopRes.connected k fd e2 ev2) =>
                some (LoopRes.connected k fd e2 (ev ++ ev2))
          else
            match connectLoopFuel localAddr localIfSet io_timeout fuel
                rest e with
            | none => none
            | some (LoopRes.exhausted e2 ev2) =>
                some (LoopRes.exhausted e2 (ev ++ ev2))
            | some (LoopRes.connected k fd e2 ev2) =>
                some (LoopRes.connected (k + 1) fd e2 (ev ++ ev2))

/-- Modelled from the spec: ssl_connect (ssl.c is absent from the sources).
Performs the TLS handshake over the already-connected descriptor and returns
the session, or fails; on failure it writes its diagnostic into the
message buffer and, per the spec, does not close the raw socket itself. -/
def ssl_connect (env : Env) (fd : Nat) : Option SSLSession :=
  if env.handshakeOk then some ⟨fd⟩ else none

/-- Modelled from the spec: ssl_disconnect (ssl.c is absent from the sources).
The spec states that close on a Connection holding a secure session tears the
session down first and then closes the raw transport; since the visible code of tcp_close does not call close(fd) on the secure branch, the teardown is
what releases the descriptor the session wraps. -/
def ssl_disconnect (s : SSLSession) : List Event :=
  [Event.sslShutdown, Event.closeFd s.fd]

/-- Output of tcp_connect: the return value (1 success, -1 failure), the tcp
record after the call, the message buffer content (`none` when the buffer was
not written), and the event trace. -/
structure ConnOutput where
  ret : Int
  tcpAfter : tcp_t
  message : Option String
  events : List Event
deriving Repr

/-- tcp_connect (tcp.c:62-170): prepare local_addr, resolve, iterate
candidates, optionally run the TLS handshake, then store the descriptor and
set the receive/send timeouts. HAVE_SSL is taken as defined. The candidate
iteration is taken as connectLoop, which agrees with the faithful
connectLoopFuel exactly when socket() succeeds on every candidate tried; on
an environment where some socket() call fails the C code instead spins on
that candidate forever and never returns. -/
def tcp_connect (env : Env) (tcp : tcp_t) (hostname : String) (port : Int)
    (secure : Bool) (local_if : Option String) (io_timeout : Nat) : ConnOutput :=
  let localAddr := mkLocalAddr env tcp.ai_family local_if
  if env.gaiRet ≠ 0 then
    ⟨-1, tcp, some (tcp_error hostname port (env.gaiStrerror env.gaiRet)), []⟩
  else
    match connectLoop localAddr (localIfNonEmpty local_if) io_timeout
        env.gaiResults env.errno0 with
    | LoopRes.exhausted e ev =>
        ⟨-1, tcp, some (tcp_error hostname port (env.strerror e)), ev⟩
    | LoopRes.connected _ fd _ ev =>
        if secure then
          match ssl_connect env fd with
          | none =>
              ⟨-1, { tcp with ssl := none }, some env.sslMessage,
                ev ++ [Event.closeFd fd]⟩
          | some s =>
              ⟨1, { tcp with ssl := some s, fd := Int.ofNat fd }, none,
                ev ++ [Event.setSockTimeouts fd io_timeout]⟩
        else
          ⟨1, { tcp with fd := Int.ofNat fd }, none,
            ev ++ [Event.setSockTimeouts fd io_timeout]⟩

/-- tcp_close (tcp.c:194-207): only acts when fd > 0; with a secure session
present it tears the session down (and clears it), otherwise it closes the
raw descriptor; in both cases it then sets fd to -1. Returns the new record
and the trace. -/
def tcp_close (tcp : tcp_t) : tcp_t × List Event :=
  if tcp.fd > 0 then
    match tcp.ssl with
    | some s => ({ tcp with ssl := none, fd := -1 }, ssl_disconnect s)
    | none => ({ tcp with fd := -1 }, [Event.closeFd tcp.fd.toNat])
  else (tcp, [])

/-- Environment oracle for get_if_ip: the descriptor of the throwaway datagram
socket (`none` means socket() returned a negative value), whether the
SIOCGIFADDR ioctl succeeds, and the dotted-quad text inet_ntoa would produce
for the address of the interface. -/
structure IfEnv where
  sockfd : Option Nat
  ioctlOk : Bool
  ifAddr : String

/-- Output of get_if_ip: the return value (true = 1 success, false = 0
failure), the ip buffer of the caller after the call, and the event trace. -/
structure IfOutput where
  ret : Bool
  ipAfter : String
  events : List Event
deriving Repr

/-- get_if_ip (tcp.c:209-232): open a throwaway PF_INET/SOCK_DGRAM socket
(family 2, type 2, protocol 0), query SIOCGIFADDR, copy the formatted address
into the output buffer only on ioctl success, close the socket, and return
the success flag. On socket() failure it returns 0 at once, with no socket to
close. `ip` is the buffer content at entry. -/
def get_if_ip (env : IfEnv) (iface : String) (ip : String) : IfOutput :=
  match env.sockfd with
  | none => ⟨false, ip, [Event.socketCall 2 2 0 none]⟩
  | some fd =>
      if env.ioctlOk then
        ⟨true, env.ifAddr,
          [Event.socketCall 2 2 0 (some fd), Event.ioctlGifaddr fd iface true,
            Event.closeFd fd]⟩
      else
        ⟨false, ip,
          [Event.socketCall 2 2 0 (some fd), Event.ioctlGifaddr fd iface false,
            Event.closeFd fd]⟩

/-- The events of an attempt result. -/
def AttemptRes.evOf : AttemptRes → List Event
  | AttemptRes.fail _ ev => ev
  | AttemptRes.succ _ _ ev => ev

/-- Whether the attempt succeeded (left sock_fd non-negative). -/
def attemptOk (localAddr : SockAddrIn) (localIfSet : Bool) (io_timeout : Nat)
    (c : Candidate) : Bool :=
  match attempt localAddr localIfSet io_timeout c with
  | AttemptRes.succ _ _ _ => true
  | AttemptRes.fail _ _ => false

/-- The events of a loop result. -/
def LoopRes.evOf : LoopRes → List Event
  | LoopRes.exhausted _ ev => ev
  | LoopRes.connected _ _ _ ev => ev

/-- Descriptor accounting step: socket creation with a valid result adds a
descriptor to the live list, closeFd removes it. -/
def fdStep (s : List Nat) : Event → List Nat
  | Event.socketCall _ _ _ (some fd) => s ++ [fd]
  | Event.closeFd fd => s.erase fd
  | _ => s

/-- Descriptors still open after a trace, starting from `init`. -/
def liveFds (init : List Nat) (ev : List Event) : List Nat :=
  ev.foldl fdStep init


/- Concrete fixtures (environments, candidates, records) used by the
closed-form evidence theorems and witnesses below. -/

def cC1 : Candidate := ⟨2, 1, 6, some 5, 0, true, 0, fun _ => ConnectOut.fail 115, 0, 0⟩

def envC1 : Env := ⟨0, [cC1], fun _ => "gai", fun _ => "syserr", fun _ => 0, 9, true, "ssl"⟩

def tcpC1 : tcp_t := ⟨2, -1, none⟩

def cC2a : Candidate := ⟨2, 1, 6, none, 24, true, 0, fun _ => ConnectOut.ok, 1, 0⟩

def cC2b : Candidate := ⟨10, 1, 6, some 7, 0, true, 0, fun _ => ConnectOut.ok, 1, 0⟩

def cC3 : Candidate := ⟨2, 1, 6, some 5, 0, true, 0, fun _ => ConnectOut.ok, 1, 0⟩

def envC3 : Env := ⟨0, [cC3], fun _ => "gai", fun _ => "syserr", fun _ => 16909060, 9, true, "ssl"⟩

def tcpC3 : tcp_t := ⟨0, -1, none⟩

def tcpC3w : tcp_t := ⟨2, -1, none⟩

def cC3f : Candidate := ⟨2, 1, 6, some 6, 0, false, 13, fun _ => ConnectOut.ok, 1, 0⟩

def tcpC4 : tcp_t := ⟨2, 5, some ⟨5⟩⟩

def cC5 : Candidate := ⟨2, 1, 6, some 3, 0, true, 0, fun _ => ConnectOut.fail 111, 1, 0⟩

def envC5 : Env := ⟨0, [cC5], fun _ => "gai", fun _ => "syserr", fun _ => 0, 9, true, "ssl"⟩

def tcpC5 : tcp_t := ⟨2, -1, none⟩

def cC7 : Candidate := ⟨10, 1, 6, some 8, 0, true, 0, fun _ => ConnectOut.ok, 1, 0⟩

def envC7 : Env := ⟨0, [cC7], fun _ => "gai", fun _ => "syserr", fun _ => 0, 9, true, "ssl"⟩

def tcpC7 : tcp_t := ⟨0, -1, none⟩

def cC8 : Candidate := ⟨2, 1, 6, some 3, 0, true, 0, fun _ => ConnectOut.fail 111, 1, 0⟩

def envC8 : Env := ⟨0, [cC8], fun _ => "gai", fun _ => "syserr", fun _ => 0, 9, true, "ssl"⟩

def tcpC8 : tcp_t := ⟨2, -1, none⟩

def ifenvC9 : IfEnv := ⟨some 4, false, "192.168.0.7"⟩

def envC10 : Env := ⟨2, [], fun _ => "gai", fun _ => "syserr", fun _ => 0, 9, true, "ssl"⟩

def tcpC10 : tcp_t := ⟨2, 44, none⟩

/- ------------------------------------------------------------------ -/
/- Helper lemmas.                                                      -/
/- ------------------------------------------------------------------ -/

theorem liveFds_append (init : List Nat) (a b : List Event) :
    liveFds init (a ++ b) = liveFds (liveFds init a) b := by
  simp [liveFds, List.foldl_append]

theorem evOf_prepend (pre : List Event) (r : AttemptRes) :
    (r.prepend pre).evOf = pre ++ r.evOf := by
  cases r <;> rfl

theorem prepend_fail (pre : List Event) (r : AttemptRes) (e : Nat) (ev : List Event)
    (h : r.prepend pre = AttemptRes.fail e ev) :
    ∃ ev0, r = AttemptRes.fail e ev0 ∧ ev = pre ++ ev0 := by
  cases r with
  | fail e0 ev0 =>
      simp only [AttemptRes.prepend] at h
      injection h with h1 h2
      exact ⟨ev0, by rw [h1], h2.symm⟩
  | succ fd u ev0 => exact absurd h (by simp [AttemptRes.prepend])

theorem prepend_succ (pre : List Event) (r : AttemptRes) (fd : Nat)
    (u : Option Nat) (ev : List Event)
    (h : r.prepend pre = AttemptRes.succ fd u ev) :
    ∃ ev0, r = AttemptRes.succ fd u ev0 ∧ ev = pre ++ ev0 := by
  cases r with
  | succ fd0 u0 ev0 =>
      simp only [AttemptRes.prepend] at h
      injection h with h1 h2 h3
      exact ⟨ev0, by rw [h1, h2], h3.symm⟩
  | fail e0 ev0 => exact absurd h (by simp [AttemptRes.prepend])

theorem connectPhase_fail_live (t fd : Nat) (c : Candidate) (e : Nat)
    (ev : List Event) (init : List Nat)
    (h : connectPhase t fd c = AttemptRes.fail e ev) :
    liveFds init ev = init.erase fd := by
  simp only [connectPhase] at h
  cases hco : c.connOut (nbFlag t) with
  | ok => simp only [hco] at h; exact absurd h (by simp)
  | fail e2 =>
      simp only [hco] at h
      by_cases he : e2 = EINPROGRESS
      · rw [if_pos he] at h
        by_cases hs : c.selRet = -1
        · rw [if_pos hs] at h
          injection h with h1 h2
          subst h2
          cases hnb : nbFlag t <;> simp [hnb, liveFds, fdStep]
        · rw [if_neg hs] at h
          exact absurd h (by simp)
      · rw [if_neg he] at h
        injection h with h1 h2
        subst h2
        cases hnb : nbFlag t <;> simp [hnb, liveFds, fdStep]

theorem connectPhase_succ_live (t fd : Nat) (c : Candidate) (fd2 : Nat)
    (u : Option Nat) (ev : List Event) (init : List Nat)
    (h : connectPhase t fd c = AttemptRes.succ fd2 u ev) :
    fd2 = fd ∧ liveFds init ev = init := by
  simp only [connectPhase] at h
  cases hco : c.connOut (nbFlag t) with
  | ok =>
      simp only [hco] at h
      injection h with h1 h2 h3
      subst h3
      refine ⟨h1.symm, ?_⟩
      cases hnb : nbFlag t <;> simp [hnb, liveFds, fdStep]
  | fail e2 =>
      simp only [hco] at h
      by_cases he : e2 = EINPROGRESS
      · rw [if_pos he] at h
        by_cases hs : c.selRet = -1
        · rw [if_pos hs] at h
          exact absurd h (by simp)
        · rw [if_neg hs] at h
          injection h with h1 h2 h3
          subst h3
          refine ⟨h1.symm, ?_⟩
          cases hnb : nbFlag t <;> simp [hnb, liveFds, fdStep]
      · rw [if_neg he] at h
        exact absurd h (by simp)

theorem attempt_fail_live (la : SockAddrIn) (ls : Bool) (t : Nat) (c : Candidate)
    (e : Nat) (ev : List Event)
    (h : attempt la ls t c = AttemptRes.fail e ev) :
    liveFds [] ev = [] := by
  simp only [attempt] at h
  cases hs : c.sockfd with
  | none =>
      simp only [hs] at h
      injection h with h1 h2
      subst h2
      simp [liveFds, fdStep]
  | some fd =>
      simp only [hs] at h
      by_cases hb : c.ai_family = AF_INET ∧ ls = true
      · rw [if_pos hb] at h
        by_cases hbk : c.bindOk = true
        · rw [if_pos hbk] at h
          obtain ⟨ev0, hcp, rfl⟩ := prepend_fail _ _ _ _ h
          rw [liveFds_append]
          have h2 := connectPhase_fail_live t fd c e ev0
            (liveFds []
              ([Event.socketCall c.ai_family c.ai_socktype c.ai_protocol (some fd)] ++
                [Event.bindCall fd la true])) hcp
          rw [h2]
          simp [liveFds, fdStep]
        · rw [if_neg hbk] at h
          injection h with h1 h2
          subst h2
          simp [liveFds, fdStep]
      · rw [if_neg hb] at h
        obtain ⟨ev0, hcp, rfl⟩ := prepend_fail _ _ _ _ h
        rw [liveFds_append]
        have h2 := connectPhase_fail_live t fd c e ev0
          (liveFds []
            [Event.socketCall c.ai_family c.ai_socktype c.ai_protocol (some fd)]) hcp
        rw [h2]
        simp [liveFds, fdStep]

theorem attempt_succ_live (la : SockAddrIn) (ls : Bool) (t : Nat) (c : Candidate)
    (fd : Nat) (u : Option Nat) (ev : List Event)
    (h : attempt la ls t c = AttemptRes.succ fd u ev) :
    liveFds [] ev = [fd] := by
  simp only [attempt] at h
  cases hs : c.sockfd with
  | none => simp only [hs] at h; exact absurd h (by simp)
  | some fd0 =>
      simp only [hs] at h
      by_cases hb : c.ai_family = AF_INET ∧ ls = true
      · rw [if_pos hb] at h
        by_cases hbk : c.bindOk = true
        · rw [if_pos hbk] at h
          obtain ⟨ev0, hcp, rfl⟩ := prepend_succ _ _ _ _ _ h
          obtain ⟨rfl, h2⟩ := connectPhase_succ_live t fd0 c fd u ev0
            (liveFds []
              ([Event.socketCall c.ai_family c.ai_socktype c.ai_protocol (some fd0)] ++
                [Event.bindCall fd0 la true])) hcp
          rw [liveFds_append, h2]
          simp [liveFds, fdStep]
        · rw [if_neg hbk] at h
          exact absurd h (by simp)
      · rw [if_neg hb] at h
        obtain ⟨ev0, hcp, rfl⟩ := prepend_succ _ _ _ _ _ h
        obtain ⟨rfl, h2⟩ := connectPhase_succ_live t fd0 c fd u ev0
          (liveFds []
            [Event.socketCall c.ai_family c.ai_socktype c.ai_protocol (some fd0)]) hcp
        rw [liveFds_append, h2]
        simp [liveFds, fdStep]

theorem connectLoop_exhausted_live (la : SockAddrIn) (ls : Bool) (t : Nat) :
    ∀ (cands : List Candidate) (e0 e : Nat) (ev : List Event),
      connectLoop la ls t cands e0 = LoopRes.exhausted e ev →
      liveFds [] ev = [] := by
  intro cands
  induction cands with
  | nil =>
      intro e0 e ev h
      simp only [connectLoop] at h
      injection h with h1 h2
      subst h2
      rfl
  | cons c rest ih =>
      intro e0 e ev h
      simp only [connectLoop] at h
      cases ha : attempt la ls t c with
      | succ fd u ev2 => simp only [ha] at h; exact LoopRes.noConfusion h
      | fail e2 ev2 =>
          simp only [ha] at h
          cases hl : connectLoop la ls t rest e2 with
          | connected k fd e3 ev3 => simp only [hl] at h; exact LoopRes.noConfusion h
          | exhausted e3 ev3 =>
              simp only [hl] at h
              injection h with h1 h2
              subst h2
              rw [liveFds_append, attempt_fail_live la ls t c e2 ev2 ha]
              exact ih e2 e3 ev3 hl

theorem connectLoop_connected_live (la : SockAddrIn) (ls : Bool) (t : Nat) :
    ∀ (cands : List Candidate) (e0 k fd e : Nat) (ev : List Event),
      connectLoop la ls t cands e0 = LoopRes.connected k fd e ev →
      liveFds [] ev = [fd] := by
  intro cands
  induction cands with
  | nil => intro e0 k fd e ev h; simp only [connectLoop] at h; exact LoopRes.noConfusion h
  | cons c rest ih =>
      intro e0 k fd e ev h
      simp only [connectLoop] at h
      cases ha : attempt la ls t c with
      | succ fd2 u ev2 =>
          simp only [ha] at h
          injection h with h1 h2 h3 h4
          subst h4
          rw [← h2]
          exact attempt_succ_live la ls t c fd2 u ev2 ha
      | fail e2 ev2 =>
          simp only [ha] at h
          cases hl : connectLoop la ls t rest e2 with
          | exhausted e3 ev3 => simp only [hl] at h; exact LoopRes.noConfusion h
          | connected k3 fd3 e3 ev3 =>
              simp only [hl] at h
              injection h with h1 h2 h3 h4
              subst h4
              rw [liveFds_append, attempt_fail_live la ls t c e2 ev2 ha, ← h2]
              exact ih e2 k3 fd3 e3 ev3 hl

theorem connectLoop_connected_spec (la : SockAddrIn) (ls : Bool) (t : Nat) :
    ∀ (cands : List Candidate) (e0 k fd e : Nat) (ev : List Event),
      connectLoop la ls t cands e0 = LoopRes.connected k fd e ev →
      k < cands.length ∧
      ((cands.take k).all fun c => !attemptOk la ls t c) = true ∧
      ∃ c u ev2, cands[k]? = some c ∧
        attempt la ls t c = AttemptRes.succ fd u ev2 := by
  intro cands
  induction cands with
  | nil => intro e0 k fd e ev h; simp only [connectLoop] at h; exact LoopRes.noConfusion h
  | cons c rest ih =>
      intro e0 k fd e ev h
      simp only [connectLoop] at h
      cases ha : attempt la ls t c with
      | succ fd2 u ev2 =>
          simp only [ha] at h
          injection h with h1 h2 h3 h4
          subst h1
          refine ⟨Nat.succ_pos _, by simp, c, u, ev2, by simp, ?_⟩
          rw [ha, h2]
      | fail e2 ev2 =>
          simp only [ha] at h
          cases hl : connectLoop la ls t rest e2 with
          | exhausted e3 ev3 => simp only [hl] at h; exact LoopRes.noConfusion h
          | connected k3 fd3 e3 ev3 =>
              simp only [hl] at h
              injection h with h1 h2 h3 h4
              subst h1 h2
              obtain ⟨ihl, iha, c2, u2, ev4, hget, hsu⟩ :=
                ih e2 k3 fd3 e3 ev3 hl
              refine ⟨Nat.succ_lt_succ ihl, ?_, c2, u2, ev4, by simpa using hget, hsu⟩
              simp only [List.take_succ_cons, List.all_cons, iha, Bool.and_true]
              simp [attemptOk, ha]

theorem connectLoop_exhausted_all_fail (la : SockAddrIn) (ls : Bool) (t : Nat) :
    ∀ (cands : List Candidate) (e0 e : Nat) (ev : List Event),
      connectLoop la ls t cands e0 = LoopRes.exhausted e ev →
      (cands.all fun c => !attemptOk la ls t c) = true := by
  intro cands
  induction cands with
  | nil => intro e0 e ev h; simp
  | cons c rest ih =>
      intro e0 e ev h
      simp only [connectLoop] at h
      cases ha : attempt la ls t c with
      | succ fd u ev2 => simp only [ha] at h; exact LoopRes.noConfusion h
      | fail e2 ev2 =>
          simp only [ha] at h
          cases hl : connectLoop la ls t rest e2 with
          | connected k fd e3 ev3 => simp only [hl] at h; exact LoopRes.noConfusion h
          | exhausted e3 ev3 =>
              simp only [List.all_cons, Bool.and_eq_true]
              exact ⟨by simp [attemptOk, ha], ih e2 e3 ev3 hl⟩

theorem connectLoop_exhausted_last (la : SockAddrIn) (ls : Bool) (t : Nat) :
    ∀ (l : List Candidate) (c : Candidate) (e0 e : Nat) (ev : List Event),
      connectLoop la ls t (l ++ [c]) e0 = LoopRes.exhausted e ev →
      ∃ ev2, attempt la ls t c = AttemptRes.fail e ev2 := by
  intro l
  induction l with
  | nil =>
      intro c e0 e ev h
      simp only [List.nil_append, connectLoop] at h
      cases ha : attempt la ls t c with
      | succ fd u ev2 => simp only [ha] at h; exact LoopRes.noConfusion h
      | fail e2 ev2 =>
          simp only [ha, connectLoop] at h
          injection h with h1 h2
          subst h1
          exact ⟨ev2, rfl⟩
  | cons c0 l ih =>
      intro c e0 e ev h
      simp only [List.cons_append, connectLoop] at h
      cases ha : attempt la ls t c0 with
      | succ fd u ev2 => simp only [ha] at h; exact LoopRes.noConfusion h
      | fail e2 ev2 =>
          simp only [ha, List.append_eq] at h
          cases hl : connectLoop la ls t (l ++ [c]) e2 with
          | connected k fd e3 ev3 => simp only [hl] at h; exact LoopRes.noConfusion h
          | exhausted e3 ev3 =>
              simp only [hl] at h
              injection h with h1 h2
              subst h1
              exact ih c e2 e3 ev3 hl

theorem connectLoop_events_mem (la : SockAddrIn) (ls : Bool) (t : Nat) :
    ∀ (cands : List Candidate) (e0 : Nat) (x : Event),
      x ∈ (connectLoop la ls t cands e0).evOf →
      ∃ c, c ∈ cands ∧ x ∈ (attempt la ls t c).evOf := by
  intro cands
  induction cands with
  | nil => intro e0 x hx; simp [connectLoop, LoopRes.evOf] at hx
  | cons c rest ih =>
      intro e0 x hx
      simp only [connectLoop] at hx
      cases ha : attempt la ls t c with
      | succ fd u ev2 =>
          simp only [ha, LoopRes.evOf] at hx
          exact ⟨c, List.mem_cons_self c rest, by rw [ha]; exact hx⟩
      | fail e2 ev2 =>
          simp only [ha] at hx
          cases hl : connectLoop la ls t rest e2 with
          | exhausted e3 ev3 =>
              simp only [hl, LoopRes.evOf] at hx
              rcases List.mem_append.mp hx with hx1 | hx2
              · exact ⟨c, List.mem_cons_self c rest, by rw [ha]; exact hx1⟩
              · obtain ⟨c2, hc2, hm⟩ := ih e2 x (by rw [hl]; exact hx2)
                exact ⟨c2, List.mem_cons_of_mem c hc2, hm⟩
          | connected k fd e3 ev3 =>
              simp only [hl, LoopRes.evOf] at hx
              rcases List.mem_append.mp hx with hx1 | hx2
              · exact ⟨c, List.mem_cons_self c rest, by rw [ha]; exact hx1⟩
              · obtain ⟨c2, hc2, hm⟩ := ih e2 x (by rw [hl]; exact hx2)
                exact ⟨c2, List.mem_cons_of_mem c hc2, hm⟩

theorem connectPhase_no_bind (t fd : Nat) (c : Candidate) (fd2 : Nat)
    (a : SockAddrIn) (ok : Bool) :
    Event.bindCall fd2 a ok ∉ (connectPhase t fd c).evOf := by
  intro h
  simp only [connectPhase] at h
  cases hco : c.connOut (nbFlag t) with
  | ok =>
      simp only [hco, AttemptRes.evOf] at h
      cases hnb : nbFlag t <;> simp [hnb] at h
  | fail e2 =>
      simp only [hco] at h
      by_cases he : e2 = EINPROGRESS
      · rw [if_pos he] at h
        by_cases hs : c.selRet = -1
        · rw [if_pos hs] at h
          simp only [AttemptRes.evOf] at h
          cases hnb : nbFlag t <;> simp [hnb] at h
        · rw [if_neg hs] at h
          simp only [AttemptRes.evOf] at h
          cases hnb : nbFlag t <;> simp [hnb] at h
      · rw [if_neg he] at h
        simp only [AttemptRes.evOf] at h
        cases hnb : nbFlag t <;> simp [hnb] at h

theorem connectPhase_nonblock_mem (t fd : Nat) (c : Candidate) (fd2 : Nat)
    (h : Event.setNonblock fd2 ∈ (connectPhase t fd c).evOf) :
    nbFlag t = true := by
  cases hnb : nbFlag t with
  | true => rfl
  | false =>
      exfalso
      simp only [connectPhase, hnb] at h
      cases hco : c.connOut false with
      | ok => simp only [hco, AttemptRes.evOf] at h; simp at h
      | fail e2 =>
          simp only [hco] at h
          by_cases he : e2 = EINPROGRESS
          · rw [if_pos he] at h
            by_cases hs : c.selRet = -1
            · rw [if_pos hs] at h; simp [AttemptRes.evOf] at h
            · rw [if_neg hs] at h; simp [AttemptRes.evOf] at h
          · rw [if_neg he] at h; simp [AttemptRes.evOf] at h

theorem connectPhase_select_mem (t fd : Nat) (c : Candidate) (fd2 : Nat)
    (ts : Nat) (r : Int)
    (h : Event.selectCall fd2 ts r ∈ (connectPhase t fd c).evOf) :
    c.connOut (nbFlag t) = ConnectOut.fail EINPROGRESS := by
  simp only [connectPhase] at h
  cases hco : c.connOut (nbFlag t) with
  | ok =>
      exfalso
      simp only [hco, AttemptRes.evOf] at h
      cases hnb : nbFlag t <;> simp [hnb] at h
  | fail e2 =>
      simp only [hco] at h
      by_cases he : e2 = EINPROGRESS
      · rw [he]
      · exfalso
        rw [if_neg he] at h
        simp only [AttemptRes.evOf] at h
        cases hnb : nbFlag t <;> simp [hnb] at h

theorem attempt_bind_mem (la : SockAddrIn) (ls : Bool) (t : Nat) (c : Candidate)
    (fd2 : Nat) (a : SockAddrIn) (ok : Bool)
    (h : Event.bindCall fd2 a ok ∈ (attempt la ls t c).evOf) :
    a = la ∧ ls = true ∧ c.ai_family = AF_INET := by
  simp only [attempt] at h
  cases hs : c.sockfd with
  | none =>
      exfalso
      simp only [hs, AttemptRes.evOf] at h
      simp at h
  | some fd =>
      simp only [hs] at h
      by_cases hb : c.ai_family = AF_INET ∧ ls = true
      · rw [if_pos hb] at h
        by_cases hbk : c.bindOk = true
        · rw [if_pos hbk, evOf_prepend] at h
          rcases List.mem_append.mp h with h1 | h2
          · simp only [List.cons_append, List.nil_append, List.mem_cons,
              List.not_mem_nil, or_false] at h1
            rcases h1 with h1 | h1
            · exact Event.noConfusion h1
            · injection h1 with q1 q2 q3
              exact ⟨q2, hb.2, hb.1⟩
          · exact absurd h2 (connectPhase_no_bind t fd c fd2 a ok)
        · rw [if_neg hbk] at h
          simp only [AttemptRes.evOf, List.cons_append, List.nil_append,
            List.mem_cons, List.not_mem_nil, or_false] at h
          rcases h with h1 | h1 | h1
          · exact Event.noConfusion h1
          · injection h1 with q1 q2 q3
            exact ⟨q2, hb.2, hb.1⟩
          · exact Event.noConfusion h1
      · exfalso
        rw [if_neg hb, evOf_prepend] at h
        rcases List.mem_append.mp h with h1 | h2
        · simp at h1
        · exact absurd h2 (connectPhase_no_bind t fd c fd2 a ok)

theorem attempt_nonblock_mem (la : SockAddrIn) (ls : Bool) (t : Nat)
    (c : Candidate) (fd2 : Nat)
    (h : Event.setNonblock fd2 ∈ (attempt la ls t c).evOf) :
    nbFlag t = true := by
  simp only [attempt] at h
  cases hs : c.sockfd with
  | none =>
      exfalso
      simp only [hs, AttemptRes.evOf] at h
      simp at h
  | some fd =>
      simp only [hs] at h
      by_cases hb : c.ai_family = AF_INET ∧ ls = true
      · rw [if_pos hb] at h
        by_cases hbk : c.bindOk = true
        · rw [if_pos hbk, evOf_prepend] at h
          rcases List.mem_append.mp h with h1 | h2
          · exfalso; simp at h1
          · exact connectPhase_nonblock_mem t fd c fd2 h2
        · exfalso
          rw [if_neg hbk] at h
          simp only [AttemptRes.evOf] at h
          simp at h
      · rw [if_neg hb, evOf_prepend] at h
        rcases List.mem_append.mp h with h1 | h2
        · exfalso; simp at h1
        · exact connectPhase_nonblock_mem t fd c fd2 h2

theorem attempt_select_mem (la : SockAddrIn) (ls : Bool) (t : Nat)
    (c : Candidate) (fd2 : Nat) (ts : Nat) (r : Int)
    (h : Event.selectCall fd2 ts r ∈ (attempt la ls t c).evOf) :
    c.connOut (nbFlag t) = ConnectOut.fail EINPROGRESS := by
  simp only [attempt] at h
  cases hs : c.sockfd with
  | none =>
      exfalso
      simp only [hs, AttemptRes.evOf] at h
      simp at h
  | some fd =>
      simp only [hs] at h
      by_cases hb : c.ai_family = AF_INET ∧ ls = true
      · rw [if_pos hb] at h
        by_cases hbk : c.bindOk = true
        · rw [if_pos hbk, evOf_prepend] at h
          rcases List.mem_append.mp h with h1 | h2
          · exfalso; simp at h1
          · exact connectPhase_select_mem t fd c fd2 ts r h2
        · exfalso
          rw [if_neg hbk] at h
          simp only [AttemptRes.evOf] at h
          simp at h
      · rw [if_neg hb, evOf_prepend] at h
        rcases List.mem_append.mp h with h1 | h2
        · exfalso; simp at h1
        · exact connectPhase_select_mem t fd c fd2 ts r h2

theorem tcp_connect_events_sub (env : Env) (tcp : tcp_t) (hostname : String)
    (port : Int) (secure : Bool) (lif : Option String) (t : Nat) (x : Event)
    (hx : x ∈ (tcp_connect env tcp hostname port secure lif t).events) :
    x ∈ (connectLoop (mkLocalAddr env tcp.ai_family lif) (localIfNonEmpty lif) t
        env.gaiResults env.errno0).evOf ∨
    (∃ fd, x = Event.closeFd fd) ∨
    (∃ fd s, x = Event.setSockTimeouts fd s) := by
  simp only [tcp_connect] at hx
  by_cases hg : env.gaiRet ≠ 0
  · rw [if_pos hg] at hx
    simp at hx
  · rw [if_neg hg] at hx
    cases hl : connectLoop (mkLocalAddr env tcp.ai_family lif)
        (localIfNonEmpty lif) t env.gaiResults env.errno0 with
    | exhausted e ev =>
        simp only [hl] at hx
        exact Or.inl hx
    | connected k fd ef ev =>
        simp only [hl] at hx
        cases hsec : secure with
        | false =>
            simp only [hsec] at hx
            rcases List.mem_append.mp hx with h1 | h2
            · exact Or.inl h1
            · simp at h2
              exact Or.inr (Or.inr ⟨fd, t, h2⟩)
        | true =>
            simp only [hsec] at hx
            cases hssl : ssl_connect env fd with
            | none =>
                simp only [hssl] at hx
                rcases List.mem_append.mp hx with h1 | h2
                · exact Or.inl h1
                · simp at h2
                  exact Or.inr (Or.inl ⟨fd, h2⟩)
            | some s =>
                simp only [hssl] at hx
                rcases List.mem_append.mp hx with h1 | h2
                · exact Or.inl h1
                · simp at h2
                  exact Or.inr (Or.inr ⟨fd, t, h2⟩)

theorem connectLoopFuel_agrees (la : SockAddrIn) (ls : Bool) (t : Nat) :
    ∀ (cands : List Candidate) (fuel e0 : Nat),
      (∀ c, c ∈ cands → c.sockfd ≠ none) →
      cands.length < fuel →
      connectLoopFuel la ls t fuel cands e0 =
        some (connectLoop la ls t cands e0) := by
  intro cands
  induction cands with
  | nil =>
      intro fuel e0 h hf
      cases fuel with
      | zero => exact absurd hf (Nat.not_lt_zero _)
      | succ n => rfl
  | cons c rest ih =>
      intro fuel e0 h hf
      cases fuel with
      | zero => exact absurd hf (Nat.not_lt_zero _)
      | succ n =>
          simp only [connectLoopFuel, connectLoop]
          cases ha : attempt la ls t c with
          | succ fd u ev => rfl
          | fail e ev =>
              have hs : ¬(c.sockfd = none) := h c (List.mem_cons_self c rest)
              have hlen : rest.length < n := by
                simp only [List.length_cons] at hf
                omega
              have hrec := ih n e (fun c2 hc2 => h c2 (List.mem_cons_of_mem c hc2)) hlen
              cases hcl : connectLoop la ls t rest e with
              | exhausted e2 ev2 => simp [hs, hrec, hcl]
              | connected k fd e2 ev2 => simp [hs, hrec, hcl]

/- ------------------------------------------------------------------ -/
/- Claim theorems.                                                     -/
/- ------------------------------------------------------------------ -/

/-- Claim C1 (evidence of the code bug): at a concrete input with one
candidate whose connect reports EINPROGRESS and whose select wait returns 0
(that is, the readiness wait timed out with no descriptor ready),
tcp_connect nevertheless returns success (1), installs the timed-out socket
as the descriptor of the Connection, and never closes it. The code only tests
`ret == -1` after select (tcp.c:136), so a select timeout is treated as
success instead of discarding the socket and advancing, contradicting the
claim and step 2d of the spec. -/
theorem tcp_connect_select_timeout_kept :
    (tcp_connect envC1 tcpC1 "example.org" 80 false none 7).ret = 1 ∧
    (tcp_connect envC1 tcpC1 "example.org" 80 false none 7).tcpAfter.fd = 5 ∧
    Event.selectCall 5 7 0 ∈
      (tcp_connect envC1 tcpC1 "example.org" 80 false none 7).events ∧
    Event.closeFd 5 ∉
      (tcp_connect envC1 tcpC1 "example.org" 80 false none 7).events := by
  decide

/-- Claim C4: on a live Connection (fd > 0) holding a secure session,
tcp_close first tears the session down — which, per the spec-modelled
ssl_disconnect, releases the wrapped raw descriptor — and clears the session;
and in every case (secure or plain) the fd field is set to the closed
sentinel -1. -/
theorem tcp_close_secure_teardown (tcp : tcp_t) (h : tcp.fd > 0) :
    (∀ s, tcp.ssl = some s →
      (tcp_close tcp).2 = [Event.sslShutdown, Event.closeFd s.fd] ∧
      (tcp_close tcp).1.ssl = none) ∧
    (tcp_close tcp).1.fd = -1 := by
  cases hs : tcp.ssl with
  | some s => simp [tcp_close, h, hs, ssl_disconnect]
  | none => simp [tcp_close, h, hs]

/-- Witness for C4 at a concrete live secure Connection. -/
theorem tcp_close_secure_teardown_witness :
    (tcp_close tcpC4).2 = [Event.sslShutdown, Event.closeFd 5] ∧
    (tcp_close tcpC4).1.fd = -1 := by
  have h := tcp_close_secure_teardown tcpC4 (by decide)
  exact ⟨(h.1 ⟨5⟩ rfl).1, h.2⟩

/-- Claim C6: tcp_close is idempotent. After any tcp_close, a second
tcp_close on the resulting Connection is a no-op: it returns the record
unchanged and performs no action at all (empty trace, so no error and no
fault), because the fd > 0 guard (tcp.c:197) fails on the closed sentinel. -/
theorem tcp_close_idempotent (tcp : tcp_t) :
    tcp_close (tcp_close tcp).1 = ((tcp_close tcp).1, []) := by
  by_cases h : tcp.fd > 0
  · cases hs : tcp.ssl with
    | some s =>
        simp [tcp_close, h, hs, show ¬((-1 : Int) > 0) by decide]
    | none =>
        simp [tcp_close, h, hs, show ¬((-1 : Int) > 0) by decide]
  · simp [tcp_close, h]

/-- Claim C9: get_if_ip on any failing lookup returns the failure indicator
with the output buffer of the caller left exactly as it was; the throwaway
datagram socket, whenever one was opened, is closed regardless of outcome;
and when no socket could be opened, nothing but the failed socket call
happens at all. -/
theorem get_if_ip_failure_frame (env : IfEnv) (iface ip : String) :
    ((get_if_ip env iface ip).ret = false → (get_if_ip env iface ip).ipAfter = ip) ∧
    (∀ fd, env.sockfd = some fd →
      Event.closeFd fd ∈ (get_if_ip env iface ip).events) ∧
    (env.sockfd = none →
      (get_if_ip env iface ip).events = [Event.socketCall 2 2 0 none]) := by
  cases hs : env.sockfd with
  | none => simp [get_if_ip, hs]
  | some fd =>
      by_cases hioc : env.ioctlOk = true
      · simp [get_if_ip, hs, hioc]
      · simp [get_if_ip, hs, hioc]

/-- Witness for C9: a failing ioctl lookup leaves the buffer untouched and
closes the throwaway socket. -/
theorem get_if_ip_failure_frame_witness :
    (get_if_ip ifenvC9 "nonexistent0" "untouched").ipAfter = "untouched" ∧
    Event.closeFd 4 ∈ (get_if_ip ifenvC9 "nonexistent0" "untouched").events := by
  have h := get_if_ip_failure_frame ifenvC9 "nonexistent0" "untouched"
  exact ⟨h.1 (by decide), h.2.1 4 rfl⟩

/-- Claim C10: error atomicity of tcp_connect with respect to the fd field of the
connection record. Whenever tcp_connect returns -1 (resolution failure,
candidate exhaustion, or handshake failure), the fd field of the tcp record is exactly
what it was before the call: the assignment tcp->fd = sock_fd (tcp.c:162)
sits after every failure return. -/
theorem tcp_connect_fd_unchanged_on_failure (env : Env) (tcp : tcp_t)
    (hostname : String) (port : Int) (secure : Bool) (lif : Option String)
    (t : Nat)
    (hr : (tcp_connect env tcp hostname port secure lif t).ret = -1) :
    (tcp_connect env tcp hostname port secure lif t).tcpAfter.fd = tcp.fd := by
  by_cases hg : env.gaiRet ≠ 0
  · simp [tcp_connect, hg]
  · cases hl : connectLoop (mkLocalAddr env tcp.ai_family lif)
        (localIfNonEmpty lif) t env.gaiResults env.errno0 with
    | exhausted e ev => simp [tcp_connect, hg, hl]
    | connected k fd ef ev =>
        cases hsec : secure with
        | false => exfalso; simp [tcp_connect, hg, hl, hsec] at hr
        | true =>
            cases hok : env.handshakeOk with
            | true =>
                exfalso
                simp [tcp_connect, hg, hl, hsec, ssl_connect, hok] at hr
            | false =>
                simp [tcp_connect, hg, hl, hsec, ssl_connect, hok]

/-- Witness for C10 at a concrete resolution failure. -/
theorem tcp_connect_fd_unchanged_witness :
    (tcp_connect envC10 tcpC10 "h" 80 false none 0).tcpAfter.fd = tcpC10.fd :=
  tcp_connect_fd_unchanged_on_failure envC10 tcpC10 "h" 80 false none 0 (by decide)

/-- Claim C2 (evidence of the code bug): when socket() fails for a candidate,
the loop never advances. In the faithful loop embedding (connectLoopFuel),
with a first candidate cC2a whose socket() persistently fails (errno 24,
too many open files) and a second candidate cC2b that would connect with
descriptor 7, the loop never completes for ANY iteration bound and ANY
starting errno: the C loop body at tcp.c:103-144 is guarded by
sock_fd != -1 and gai_result is advanced only inside it, so a socket()
failure retries the same candidate forever. The code thus neither skips to
the next candidate on creation failure (spec step 2a) nor terminates, even
though the very next candidate would succeed — as the last two conjuncts
show: under the skip behavior the claim and the spec demand (the idealized
connectLoop), the same input connects at index 1 with descriptor 7. -/
theorem tcp_connect_socket_failure_no_skip :
    (∀ fuel e0, connectLoopFuel ⟨0, 0, 0⟩ false 0 fuel [cC2a, cC2b] e0 = none) ∧
    cC2a.sockfd = none ∧
    attempt ⟨0, 0, 0⟩ false 0 cC2b = AttemptRes.succ 7 none
      [Event.socketCall 10 1 6 (some 7), Event.connectCall 7 false ConnectOut.ok,
        Event.setBlocking 7] ∧
    connectLoop ⟨0, 0, 0⟩ false 0 [cC2a, cC2b] 9 = LoopRes.connected 1 7 24
      [Event.socketCall 2 1 6 none, Event.socketCall 10 1 6 (some 7),
        Event.connectCall 7 false ConnectOut.ok, Event.setBlocking 7] := by
  refine ⟨?_, rfl, by decide, rfl⟩
  intro fuel
  induction fuel with
  | zero => intro e0; rfl
  | succ n ih =>
      intro e0
      have ha : attempt ⟨0, 0, 0⟩ false 0 cC2a =
          AttemptRes.fail 24 [Event.socketCall 2 1 6 none] := by decide
      simp [connectLoopFuel, ha, show cC2a.sockfd = none from rfl, ih 24]

/-- Claim C3 (counterexample): the claim says the socket for an IPv4
candidate is bound to exactly the supplied local IPv4 address whenever the
local-interface string is non-empty. But local_addr is populated only when
the own family preference of the tcp record is AF_INET (tcp.c:75); with an
AF_UNSPEC preference (tcpC3) and a non-empty local interface "1.2.3.4", the
IPv4 candidate is bound to the zeroed address ⟨0,0,0⟩, not to the supplied
⟨AF_INET, 0, inet_addr "1.2.3.4"⟩. -/
theorem tcp_connect_bind_cex :
    Event.bindCall 5 ⟨0, 0, 0⟩ true ∈
      (tcp_connect envC3 tcpC3 "h" 80 false (some "1.2.3.4") 0).events ∧
    (⟨0, 0, 0⟩ : SockAddrIn) ≠ ⟨AF_INET, 0, envC3.inet_addr "1.2.3.4"⟩ := by
  decide

/-- Claim C3 (amended): every bind issued by tcp_connect uses the prepared
local_addr, and only when the local-interface string is non-empty; when the
family preference of the record is AF_INET that address is exactly the supplied
local IPv4 address with port 0 (ephemeral), while with a non-AF_INET
preference the prepared address is the zeroed one (still bound); an empty or
absent local-interface string yields no bind at all; a failing bind on an
IPv4 candidate discards that socket (closing it) and fails the attempt with
the bind errno; and a successful bind happens before the connect phase. -/
theorem tcp_connect_bind_local_addr (env : Env) (tcp : tcp_t)
    (hostname : String) (port : Int) (secure : Bool) (lif : Option String)
    (t : Nat) :
    (∀ fd a ok, Event.bindCall fd a ok ∈
        (tcp_connect env tcp hostname port secure lif t).events →
      a = mkLocalAddr env tcp.ai_family lif ∧ localIfNonEmpty lif = true) ∧
    (tcp.ai_family = AF_INET → localIfNonEmpty lif = true →
      mkLocalAddr env tcp.ai_family lif =
        ⟨AF_INET, 0, env.inet_addr (lif.getD "")⟩) ∧
    (tcp.ai_family ≠ AF_INET → mkLocalAddr env tcp.ai_family lif = ⟨0, 0, 0⟩) ∧
    (localIfNonEmpty lif = false → ∀ fd a ok, Event.bindCall fd a ok ∉
      (tcp_connect env tcp hostname port secure lif t).events) ∧
    (∀ la c fd, c.ai_family = AF_INET → c.bindOk = false → c.sockfd = some fd →
      attempt la true t c = AttemptRes.fail c.bindErrno
        [Event.socketCall c.ai_family c.ai_socktype c.ai_protocol (some fd),
          Event.bindCall fd la false, Event.closeFd fd]) ∧
    (∀ la c fd, c.ai_family = AF_INET → c.bindOk = true → c.sockfd = some fd →
      (attempt la true t c).evOf =
        [Event.socketCall c.ai_family c.ai_socktype c.ai_protocol (some fd),
          Event.bindCall fd la true] ++ (connectPhase t fd c).evOf) := by
  have ha : ∀ fd a ok, Event.bindCall fd a ok ∈
      (tcp_connect env tcp hostname port secure lif t).events →
      a = mkLocalAddr env tcp.ai_family lif ∧ localIfNonEmpty lif = true := by
    intro fd a ok h
    rcases tcp_connect_events_sub env tcp hostname port secure lif t _ h with
      h1 | ⟨fd2, h2⟩ | ⟨fd2, s2, h2⟩
    · obtain ⟨c, hc, hm⟩ := connectLoop_events_mem _ _ _ _ _ _ h1
      obtain ⟨q1, q2, q3⟩ := attempt_bind_mem _ _ _ _ _ _ _ hm
      exact ⟨q1, q2⟩
    · exact Event.noConfusion h2
    · exact Event.noConfusion h2
  refine ⟨ha, ?_, ?_, ?_, ?_, ?_⟩
  · intro h1 h2
    simp [mkLocalAddr, h1, h2]
  · intro h1
    simp [mkLocalAddr, h1]
  · intro hfalse fd a ok h
    have := (ha fd a ok h).2
    rw [hfalse] at this
    exact Bool.noConfusion this
  · intro la c fd h1 h2 h3
    simp [attempt, h1, h2, h3]
  · intro la c fd h1 h2 h3
    simp [attempt, h1, h2, h3, evOf_prepend]

/-- Witness for C3 (amended) at concrete inputs: with an AF_INET preference
the prepared address is exactly the supplied one; with no local-interface
string no bind is issued; and a failing bind produces the discard trace. -/
theorem tcp_connect_bind_local_addr_witness :
    mkLocalAddr envC3 tcpC3w.ai_family (some "1.2.3.4") =
      ⟨AF_INET, 0, envC3.inet_addr "1.2.3.4"⟩ ∧
    Event.bindCall 9 ⟨7, 7, 7⟩ true ∉
      (tcp_connect envC3 tcpC3w "h" 80 false none 0).events ∧
    attempt ⟨2, 0, 42⟩ true 0 cC3f = AttemptRes.fail cC3f.bindErrno
      [Event.socketCall cC3f.ai_family cC3f.ai_socktype cC3f.ai_protocol (some 6),
        Event.bindCall 6 ⟨2, 0, 42⟩ false, Event.closeFd 6] := by
  have h := tcp_connect_bind_local_addr envC3 tcpC3w "h" 80 false (some "1.2.3.4") 0
  have h2 := tcp_connect_bind_local_addr envC3 tcpC3w "h" 80 false none 0
  exact ⟨h.2.1 rfl (by decide), h2.2.2.2.1 rfl 9 ⟨7, 7, 7⟩ true,
    h.2.2.2.2.1 ⟨2, 0, 42⟩ cC3f 6 rfl rfl rfl⟩

theorem tcp_connect_live_neg (env : Env) (tcp : tcp_t) (hostname : String)
    (port : Int) (secure : Bool) (lif : Option String) (t : Nat)
    (hr : (tcp_connect env tcp hostname port secure lif t).ret = -1) :
    liveFds [] (tcp_connect env tcp hostname port secure lif t).events = [] := by
  by_cases hg : env.gaiRet ≠ 0
  · simp [tcp_connect, hg, liveFds]
  · cases hl : connectLoop (mkLocalAddr env tcp.ai_family lif)
        (localIfNonEmpty lif) t env.gaiResults env.errno0 with
    | exhausted e ev =>
        have hle := connectLoop_exhausted_live _ _ _ _ _ _ _ hl
        simp [tcp_connect, hg, hl, hle]
    | connected k fd ef ev =>
        have hle := connectLoop_connected_live _ _ _ _ _ _ _ _ _ hl
        cases hsec : secure with
        | false => exfalso; simp [tcp_connect, hg, hl, hsec] at hr
        | true =>
            cases hok : env.handshakeOk with
            | true =>
                exfalso
                simp [tcp_connect, hg, hl, hsec, ssl_connect, hok] at hr
            | false =>
                simp only [tcp_connect, hg, hl, hsec, ssl_connect, hok]
                simp only [if_neg hg, if_true, Bool.false_eq_true, if_false]
                rw [liveFds_append, hle]
                simp [liveFds, fdStep]

theorem tcp_connect_live_pos (env : Env) (tcp : tcp_t) (hostname : String)
    (port : Int) (secure : Bool) (lif : Option String) (t : Nat)
    (hr : (tcp_connect env tcp hostname port secure lif t).ret = 1) :
    liveFds [] (tcp_connect env tcp hostname port secure lif t).events =
      [(tcp_connect env tcp hostname port secure lif t).tcpAfter.fd.toNat] := by
  by_cases hg : env.gaiRet ≠ 0
  · exfalso; simp [tcp_connect, hg] at hr
  · cases hl : connectLoop (mkLocalAddr env tcp.ai_family lif)
        (localIfNonEmpty lif) t env.gaiResults env.errno0 with
    | exhausted e ev => exfalso; simp [tcp_connect, hg, hl] at hr
    | connected k fd ef ev =>
        have hle := connectLoop_connected_live _ _ _ _ _ _ _ _ _ hl
        cases hsec : secure with
        | false =>
            have hgoal : liveFds [] (ev ++ [Event.setSockTimeouts fd t]) = [fd] := by
              rw [liveFds_append, hle]
              simp [liveFds, fdStep]
            simp [tcp_connect, hg, hl, hsec, hgoal]
        | true =>
            cases hok : env.handshakeOk with
            | false =>
                exfalso
                simp [tcp_connect, hg, hl, hsec, ssl_connect, hok] at hr
            | true =>
                have hgoal : liveFds [] (ev ++ [Event.setSockTimeouts fd t]) = [fd] := by
                  rw [liveFds_append, hle]
                  simp [liveFds, fdStep]
                simp [tcp_connect, hg, hl, hsec, ssl_connect, hok, hgoal]

/-- Claim C5: no descriptor leak. Every abandoned candidate attempt (failed
socket creation, failed bind, failed connect or readiness wait) closes any
descriptor it opened before the loop advances — its trace leaves no live
descriptor; and globally, when tcp_connect returns -1 (including the
handshake-failure path, which closes the raw socket at tcp.c:157) the whole
trace leaves no descriptor open, while on success exactly the descriptor of the returned
Connection remains open. -/
theorem tcp_connect_no_fd_leak (env : Env) (tcp : tcp_t) (hostname : String)
    (port : Int) (secure : Bool) (lif : Option String) (t : Nat) :
    (∀ la ls c e ev, attempt la ls t c = AttemptRes.fail e ev →
      liveFds [] ev = []) ∧
    ((tcp_connect env tcp hostname port secure lif t).ret = -1 →
      liveFds [] (tcp_connect env tcp hostname port secure lif t).events = []) ∧
    ((tcp_connect env tcp hostname port secure lif t).ret = 1 →
      liveFds [] (tcp_connect env tcp hostname port secure lif t).events =
        [(tcp_connect env tcp hostname port secure lif t).tcpAfter.fd.toNat]) :=
  ⟨fun la ls c e ev h => attempt_fail_live la ls t c e ev h,
    fun hr => tcp_connect_live_neg env tcp hostname port secure lif t hr,
    fun hr => tcp_connect_live_pos env tcp hostname port secure lif t hr⟩

/-- Witness for C5: one candidate failing with a connection-refused errno;
tcp_connect returns -1 and the trace leaves no descriptor open. -/
theorem tcp_connect_no_fd_leak_witness :
    (tcp_connect envC5 tcpC5 "h" 80 false none 5).ret = -1 ∧
    liveFds [] (tcp_connect envC5 tcpC5 "h" 80 false none 5).events = [] ∧
    attempt ⟨0, 0, 0⟩ false 5 cC5 = AttemptRes.fail 111
      [Event.socketCall 2 1 6 (some 3), Event.setNonblock 3,
        Event.connectCall 3 true (ConnectOut.fail 111), Event.closeFd 3] ∧
    liveFds []
      [Event.socketCall 2 1 6 (some 3), Event.setNonblock 3,
        Event.connectCall 3 true (ConnectOut.fail 111), Event.closeFd 3] = [] := by
  have h := tcp_connect_no_fd_leak envC5 tcpC5 "h" 80 false none 5
  refine ⟨by decide, h.2.1 (by decide), by decide, ?_⟩
  exact h.1 ⟨0, 0, 0⟩ false cC5 111 _ (by decide)

/-- Claim C7: with io_timeout = 0 no connect-phase deadline is imposed: the
trace of tcp_connect never contains an O_NONBLOCK switch; given the POSIX
fact that a blocking connect never reports EINPROGRESS (as a hypothesis on
the oracle), no readiness wait (select) occurs either; and a single
candidate whose blocking connect eventually succeeds yields a successful
connect rather than an immediate failure. -/
theorem tcp_connect_zero_timeout (env : Env) (tcp : tcp_t) (hostname : String)
    (port : Int) (secure : Bool) (lif : Option String) (c : Candidate)
    (fd : Nat) :
    (∀ fd2, Event.setNonblock fd2 ∉
      (tcp_connect env tcp hostname port secure lif 0).events) ∧
    ((∀ c2, c2 ∈ env.gaiResults → c2.connOut false ≠ ConnectOut.fail EINPROGRESS) →
      ∀ fd2 ts r, Event.selectCall fd2 ts r ∉
        (tcp_connect env tcp hostname port secure lif 0).events) ∧
    (env.gaiRet = 0 → env.gaiResults = [c] → c.sockfd = some fd →
      c.connOut false = ConnectOut.ok →
      (tcp_connect env tcp hostname port false none 0).ret = 1) := by
  refine ⟨?_, ?_, ?_⟩
  · intro fd2 h
    rcases tcp_connect_events_sub env tcp hostname port secure lif 0 _ h with
      h1 | ⟨fd3, h2⟩ | ⟨fd3, s3, h2⟩
    · obtain ⟨c2, hc2, hm⟩ := connectLoop_events_mem _ _ _ _ _ _ h1
      have := attempt_nonblock_mem _ _ _ _ _ hm
      simp [nbFlag] at this
    · exact Event.noConfusion h2
    · exact Event.noConfusion h2
  · intro hp fd2 ts r h
    rcases tcp_connect_events_sub env tcp hostname port secure lif 0 _ h with
      h1 | ⟨fd3, h2⟩ | ⟨fd3, s3, h2⟩
    · obtain ⟨c2, hc2, hm⟩ := connectLoop_events_mem _ _ _ _ _ _ h1
      have hsel := attempt_select_mem _ _ _ _ _ _ _ hm
      have hnb : nbFlag 0 = false := rfl
      rw [hnb] at hsel
      exact hp c2 hc2 hsel
    · exact Event.noConfusion h2
    · exact Event.noConfusion h2
  · intro h1 h2 h3 h4
    simp [tcp_connect, h1, h2, connectLoop, attempt, h3, connectPhase, h4,
      nbFlag, localIfNonEmpty, AttemptRes.prepend]

/-- Witness for C7: a single IPv6 candidate whose blocking connect succeeds,
with io_timeout = 0: no O_NONBLOCK switch, no select, successful return. -/
theorem tcp_connect_zero_timeout_witness :
    Event.setNonblock 8 ∉ (tcp_connect envC7 tcpC7 "h" 80 false none 0).events ∧
    Event.selectCall 8 0 0 ∉ (tcp_connect envC7 tcpC7 "h" 80 false none 0).events ∧
    (tcp_connect envC7 tcpC7 "h" 80 false none 0).ret = 1 := by
  have h := tcp_connect_zero_timeout envC7 tcpC7 "h" 80 false none cC7 8
  refine ⟨h.1 8, h.2.1 ?_ 8 0 0, h.2.2 rfl rfl rfl rfl⟩
  intro c2 hc2
  have : c2 = cC7 := by
    simpa [envC7] using hc2
  rw [this]
  decide

/-- Claim C8: the failure message. tcp_error formats exactly
"Unable to connect to server {hostname}:{port}: {reason}\n"; on resolution
failure tcp_connect fills the message buffer with that format around the
own diagnostic text of the resolver (gai_strerror of the getaddrinfo return); on
candidate exhaustion it fills it around strerror of the final loop errno,
which is exactly the errno of the failed attempt of the last candidate. -/
theorem tcp_connect_failure_message (env : Env) (tcp : tcp_t)
    (hostname : String) (port : Int) (secure : Bool) (lif : Option String)
    (t : Nat) :
    (∀ r, tcp_error hostname port r =
      "Unable to connect to server " ++ hostname ++ ":" ++ toString port ++
        ": " ++ r ++ "\n") ∧
    (env.gaiRet ≠ 0 →
      (tcp_connect env tcp hostname port secure lif t).message =
        some (tcp_error hostname port (env.gaiStrerror env.gaiRet))) ∧
    (∀ e ev, env.gaiRet = 0 →
      connectLoop (mkLocalAddr env tcp.ai_family lif) (localIfNonEmpty lif) t
        env.gaiResults env.errno0 = LoopRes.exhausted e ev →
      (tcp_connect env tcp hostname port secure lif t).message =
        some (tcp_error hostname port (env.strerror e)) ∧
      ∀ l c, env.gaiResults = l ++ [c] →
        ∃ ev2, attempt (mkLocalAddr env tcp.ai_family lif) (localIfNonEmpty lif)
          t c = AttemptRes.fail e ev2) := by
  refine ⟨fun r => rfl, ?_, ?_⟩
  · intro hg
    simp [tcp_connect, hg]
  · intro e ev hg hl
    constructor
    · simp [tcp_connect, hg, hl]
    · intro l c hc
      exact connectLoop_exhausted_last _ _ _ l c env.errno0 e ev
        (by rw [← hc]; exact hl)

/-- Witness for C8: candidate exhaustion with a connection-refused errno 111;
the buffer holds the formatted message around strerror(111), and 111 is the
failure errno of the last candidate. -/
theorem tcp_connect_failure_message_witness :
    (tcp_connect envC8 tcpC8 "h" 80 false none 5).message =
      some (tcp_error "h" 80 (envC8.strerror 111)) ∧
    (∃ ev2, attempt (mkLocalAddr envC8 tcpC8.ai_family none) (localIfNonEmpty none)
      5 cC8 = AttemptRes.fail 111 ev2) := by
  have h := tcp_connect_failure_message envC8 tcpC8 "h" 80 false none 5
  exact ⟨(h.2.2 111 _ rfl rfl).1, (h.2.2 111 _ rfl rfl).2 [] cC8 rfl⟩

end Axel
